import Mathlib

/-!
A shallow embedding of the idea-ranking pipeline of this repository
(agents/searcher.py together with the analyze route guard of app.py).

Modelling conventions:
* Python numbers are modelled as exact rationals; the source computes with
  IEEE floats, and the spec itself allows a floating-point tolerance, so
  every arithmetic identity below is stated exactly over the rationals.
* External collaborators (the generative-text backend, the bibliographic
  search transport, the literature-synthesis backend) are modelled as
  oracle functions supplied to the pipeline; a Python exception raised by
  a collaborator call is the Option.none outcome of the oracle.
* A Python function that can raise an uncaught exception is embedded as a
  function into Option; Option.none means the exception escapes.
* Python dicts parsed from JSON are modelled by the Json type below, with
  insertion-order association lists and last-value-wins key insertion,
  matching dict semantics.
-/

/-- JSON values as produced by json.loads: null, booleans, numbers
(ints and floats collapse into one exact rational constructor), strings,
arrays, and objects as insertion-ordered key/value lists. -/
inductive Json where
  | null : Json
  | bool (b : Bool) : Json
  | num (q : ℚ) : Json
  | str (s : String) : Json
  | arr (elems : List Json) : Json
  | obj (fields : List (String × Json)) : Json

/-- A candidate research idea as consumed by searcher.py: the code reads
the title and description keys of the idea dict. -/
structure Idea where
  title : String
  description : String
deriving DecidableEq

/-- A normalized paper record as built by SearcherAgent._search_papers. -/
structure Paper where
  title : String
  abstract : String
  year : Option Int
  citations : Nat
  authors : List String
  url : String
deriving DecidableEq

/-! ### A model of Python json.loads on the JSON grammar

The parser below follows the standard JSON grammar accepted by json.loads
(strict mode): whitespace is space, tab, newline, carriage return; numbers
follow the JSON number grammar and are read into exact rationals; strings
support the standard escapes including 4-hex-digit unicode escapes
(surrogate pairing and the NaN/Infinity extensions are outside the model);
objects have dict semantics: insertion order with last-value-wins keys.
Parsing any other input yields none, which corresponds to json.loads
raising, exactly the event the source code catches. -/

/-- The opening brace character, written via its code point. -/
def lbrace : Char := Char.ofNat 123

/-- The closing brace character, written via its code point. -/
def rbrace : Char := Char.ofNat 125

/-- JSON whitespace as accepted between tokens by json.loads. -/
def isJsonWs (c : Char) : Bool :=
  c = ' ' || c = '\t' || c = '\n' || c = '\r'

/-- Skip JSON whitespace. -/
def skipWs : List Char → List Char
  | [] => []
  | c :: cs => if isJsonWs c then skipWs cs else c :: cs

/-- Value of a hexadecimal digit, if any. -/
def hexVal (c : Char) : Option Nat :=
  if '0' ≤ c ∧ c ≤ '9' then some (c.toNat - '0'.toNat)
  else if 'a' ≤ c ∧ c ≤ 'f' then some (c.toNat - 'a'.toNat + 10)
  else if 'A' ≤ c ∧ c ≤ 'F' then some (c.toNat - 'A'.toNat + 10)
  else none

/-- Parse the body of a JSON string (after the opening quote), returning
the decoded string and the remaining input. Fueled recursion. -/
def parseStrBody : Nat → List Char → List Char → Option (String × List Char)
  | 0, _, _ => none
  | _ + 1, [], _ => none
  | fuel + 1, c :: cs, acc =>
    if c = '"' then some (String.mk acc.reverse, cs)
    else if c = '\\' then
      match cs with
      | [] => none
      | e :: cs2 =>
        if e = '"' then parseStrBody fuel cs2 ('"' :: acc)
        else if e = '\\' then parseStrBody fuel cs2 ('\\' :: acc)
        else if e = '/' then parseStrBody fuel cs2 ('/' :: acc)
        else if e = 'b' then parseStrBody fuel cs2 ('\x08' :: acc)
        else if e = 'f' then parseStrBody fuel cs2 ('\x0c' :: acc)
        else if e = 'n' then parseStrBody fuel cs2 ('\n' :: acc)
        else if e = 'r' then parseStrBody fuel cs2 ('\r' :: acc)
        else if e = 't' then parseStrBody fuel cs2 ('\t' :: acc)
        else if e = 'u' then
          match cs2 with
          | h1 :: h2 :: h3 :: h4 :: cs3 =>
            match hexVal h1, hexVal h2, hexVal h3, hexVal h4 with
            | some a, some b, some c2, some d =>
              let n := ((a * 16 + b) * 16 + c2) * 16 + d
              if n < 0xd800 then parseStrBody fuel cs3 (Char.ofNat n :: acc)
              else none
            | _, _, _, _ => none
          | _ => none
        else none
    else if c.toNat < 0x20 then none
    else parseStrBody fuel cs (c :: acc)

/-- Take a maximal run of decimal digits. -/
def takeDigits : List Char → List Char × List Char
  | [] => ([], [])
  | c :: cs =>
    if c.isDigit then
      let p := takeDigits cs
      (c :: p.1, p.2)
    else ([], c :: cs)

/-- Numeric value of a digit run. -/
def digitsVal (ds : List Char) : Nat :=
  ds.foldl (fun acc c => acc * 10 + (c.toNat - '0'.toNat)) 0

/-- Parse a JSON number (sign, integer part without leading zeros,
optional fraction, optional exponent) into an exact rational. -/
def parseNumber (cs : List Char) : Option (ℚ × List Char) :=
  let signed : Bool × List Char :=
    match cs with
    | '-' :: r => (true, r)
    | _ => (false, cs)
  let neg := signed.1
  let p1 := takeDigits signed.2
  let intDs := p1.1
  if intDs = [] then none
  else if 1 < intDs.length ∧ intDs.headD '0' = '0' then none
  else
    let fracP : Option (List Char × List Char) :=
      match p1.2 with
      | '.' :: r2 =>
        let p2 := takeDigits r2
        if p2.1 = [] then none else some (p2.1, p2.2)
      | _ => some ([], p1.2)
    match fracP with
    | none => none
    | some (fds, r3) =>
      let expP : Option (Bool × List Char × List Char) :=
        match r3 with
        | 'e' :: r4 =>
          (match r4 with
           | '-' :: r5 => let p3 := takeDigits r5; if p3.1 = [] then none else some (true, p3.1, p3.2)
           | '+' :: r5 => let p3 := takeDigits r5; if p3.1 = [] then none else some (false, p3.1, p3.2)
           | _ => let p3 := takeDigits r4; if p3.1 = [] then none else some (false, p3.1, p3.2))
        | 'E' :: r4 =>
          (match r4 with
           | '-' :: r5 => let p3 := takeDigits r5; if p3.1 = [] then none else some (true, p3.1, p3.2)
           | '+' :: r5 => let p3 := takeDigits r5; if p3.1 = [] then none else some (false, p3.1, p3.2)
           | _ => let p3 := takeDigits r4; if p3.1 = [] then none else some (false, p3.1, p3.2))
        | _ => some (false, [], r3)
      match expP with
      | none => none
      | some (eneg, eds, rest) =>
        let base : ℚ := (digitsVal intDs : ℚ) + (digitsVal fds : ℚ) / ((10 : ℚ) ^ fds.length)
        let scaled : ℚ :=
          if eneg then base / ((10 : ℚ) ^ digitsVal eds) else base * ((10 : ℚ) ^ digitsVal eds)
        some ((if neg then -scaled else scaled), rest)

/-- Insert a key into an object under construction with Python dict
semantics: an existing key keeps its position but takes the new value;
a new key is appended. -/
def insertKey : List (String × Json) → String → Json → List (String × Json)
  | [], k, v => [(k, v)]
  | (k0, v0) :: rest, k, v =>
    if k0 = k then (k0, v) :: rest else (k0, v0) :: insertKey rest k v

/-- The three states of the recursive-descent JSON parser: parsing a
value, parsing object members, or parsing array items. -/
inductive ParseIn where
  | val (cs : List Char)
  | members (cs : List Char) (acc : List (String × Json))
  | items (cs : List Char) (acc : List Json)

/-- The recursive-descent JSON parser, fueled so that the recursion is
structural on the fuel and reduces definitionally. -/
def parseRun : Nat → ParseIn → Option (Json × List Char)
  | 0, _ => none
  | fuel + 1, ParseIn.val cs =>
    (match cs with
    | [] => none
    | c :: rest =>
      if c = 'n' then
        match rest with
        | 'u' :: 'l' :: 'l' :: r => some (Json.null, r)
        | _ => none
      else if c = 't' then
        match rest with
        | 'r' :: 'u' :: 'e' :: r => some (Json.bool true, r)
        | _ => none
      else if c = 'f' then
        match rest with
        | 'a' :: 'l' :: 's' :: 'e' :: r => some (Json.bool false, r)
        | _ => none
      else if c = '"' then
        (parseStrBody (fuel + 1) rest []).map (fun p => (Json.str p.1, p.2))
      else if c = lbrace then
        match skipWs rest with
        | c2 :: r2 =>
          if c2 = rbrace then some (Json.obj [], r2)
          else parseRun fuel (ParseIn.members (c2 :: r2) [])
        | [] => none
      else if c = '[' then
        match skipWs rest with
        | ']' :: r2 => some (Json.arr [], r2)
        | cs2 => parseRun fuel (ParseIn.items cs2 [])
      else
        (parseNumber cs).map (fun p => (Json.num p.1, p.2)))
  | fuel + 1, ParseIn.members cs acc =>
    (match cs with
    | '"' :: r =>
      match parseStrBody (fuel + 1) r [] with
      | none => none
      | some (k, r1) =>
        match skipWs r1 with
        | ':' :: r2 =>
          match parseRun fuel (ParseIn.val (skipWs r2)) with
          | none => none
          | some (v, r3) =>
            let acc2 := insertKey acc k v
            match skipWs r3 with
            | ',' :: r4 => parseRun fuel (ParseIn.members (skipWs r4) acc2)
            | c5 :: r5 => if c5 = rbrace then some (Json.obj acc2, r5) else none
            | [] => none
        | _ => none
    | _ => none)
  | fuel + 1, ParseIn.items cs acc =>
    (match parseRun fuel (ParseIn.val cs) with
    | none => none
    | some (v, r) =>
      match skipWs r with
      | ',' :: r2 => parseRun fuel (ParseIn.items (skipWs r2) (v :: acc))
      | ']' :: r2 => some (Json.arr (v :: acc).reverse, r2)
      | _ => none)

/-- Parse one JSON value at the head of the input (fueled). -/
def parseVal (fuel : Nat) (cs : List Char) : Option (Json × List Char) :=
  parseRun fuel (ParseIn.val cs)

/-- Model of json.loads: parse one JSON document surrounded by optional
whitespace; any trailing data is an error. -/
def jsonLoads (s : String) : Option Json :=
  let cs := skipWs s.data
  match parseVal (s.length + 1) cs with
  | some (v, r) => if skipWs r = [] then some v else none
  | none => none

/-! ### Defensive substring extraction and the two assessors

Embedding of the parse step shared by SearcherAgent._assess_novelty,
_assess_doability and _synthesize_literature: the raw model response is
scanned for the first opening brace and the last closing brace; when both
exist in that order the slice between them replaces the content;
json.loads is then attempted, and any failure (or a failed backend call)
degrades to the documented default dictionary. -/

/-- content.find(c): index of the first occurrence, as an Option in place
of the -1 sentinel. -/
def strFind (cs : List Char) (c : Char) : Option Nat :=
  cs.findIdx? (fun x => x = c)

/-- content.rfind(c): index of the last occurrence. -/
def strRFind (cs : List Char) (c : Char) : Option Nat :=
  (List.findIdx? (fun x => x = c) cs.reverse).map (fun i => cs.length - 1 - i)

/-- The slice content[json_start:json_end] step of the assessors:
json_start = content.find of the opening brace, json_end = content.rfind
of the closing brace plus one; the slice is taken only when json_start is
not -1 and json_end exceeds json_start, otherwise the content is left
unchanged. -/
def extractBraced (content : String) : String :=
  let cs := content.data
  match strFind cs lbrace with
  | none => content
  | some s =>
    match strRFind cs rbrace with
    | none => content
    | some e =>
      if s ≤ e then String.mk ((cs.drop s).take (e + 1 - s)) else content

/-- The parse pipeline of each assessor on a raw response text:
brace-extraction followed by json.loads. -/
def parseResponse (text : String) : Option Json :=
  jsonLoads (extractBraced text)

/-- The default novelty assessment returned by _assess_novelty when the
backend call or the parse raises. -/
def noveltyDefault : Json :=
  Json.obj [("explored", Json.str "Unknown"), ("maturity", Json.str "Unknown"),
    ("gap", Json.str "Unable to assess"), ("novelty_score", Json.num 3)]

/-- The default doability assessment returned by _assess_doability when
the backend call or the parse raises. -/
def doabilityDefault : Json :=
  Json.obj [("data_availability", Json.str "Unknown"), ("methodology", Json.str "Unknown"),
    ("timeline", Json.str "Unknown"), ("expertise_level", Json.str "Unknown"),
    ("doability_score", Json.num 3)]

/-- The default synthesis returned by _synthesize_literature when the
backend call or the parse raises. -/
def synthesisDefault : Json :=
  Json.obj [("overview", Json.str "Unable to synthesize"), ("key_papers", Json.arr []),
    ("whats_missing", Json.str "Unable to assess"),
    ("suggested_approach", Json.str "Unable to provide")]

/-- SearcherAgent._assess_novelty, with the generative backend reified as
its outcome: none models generate_content raising, some text is the raw
response. The parsed value is returned verbatim; failures degrade to the
default. -/
def assess_novelty (resp : Option String) : Json :=
  match resp with
  | none => noveltyDefault
  | some text =>
    match parseResponse text with
    | some j => j
    | none => noveltyDefault

/-- SearcherAgent._assess_doability, same shape as assess_novelty. -/
def assess_doability (resp : Option String) : Json :=
  match resp with
  | none => doabilityDefault
  | some text =>
    match parseResponse text with
    | some j => j
    | none => doabilityDefault

/-- SearcherAgent._synthesize_literature, same shape again. -/
def synthesize_literature (resp : Option String) : Json :=
  match resp with
  | none => synthesisDefault
  | some text =>
    match parseResponse text with
    | some j => j
    | none => synthesisDefault

/-! ### Python string primitives on character lists

The core string operations of the standard library recurse on byte
positions and do not reduce definitionally, so the Python string
operations the source uses (lower, strip, split, replace, containment)
are modelled directly on character lists. str.lower is modelled on the
ASCII fragment (all strings in the source prompts and the claims are
ASCII). -/

/-- Python str.lower() on the ASCII fragment, as a character list. -/
def lowerData (s : String) : List Char :=
  s.data.map Char.toLower

/-- Python str.strip() with no argument: remove leading and trailing
whitespace. -/
def pyStrip (cs : List Char) : List Char :=
  ((cs.dropWhile Char.isWhitespace).reverse.dropWhile Char.isWhitespace).reverse

/-- Python str.replace applied to the one-character pattern newline with
a space replacement, the only replace the source performs. -/
def newlineToSpace (cs : List Char) : List Char :=
  cs.map (fun c => if c = '\n' then ' ' else c)

/-- Worker for Python str.split() with no argument: accumulate the
current word, emitting it at each whitespace run. -/
def wordsAux : List Char → List Char → List (List Char)
  | [], acc => if acc = [] then [] else [acc.reverse]
  | c :: cs, acc =>
    if c.isWhitespace then
      if acc = [] then wordsAux cs [] else acc.reverse :: wordsAux cs []
    else wordsAux cs (c :: acc)

/-- Python str.split() with no argument: the whitespace-separated words,
with no empty fragments. -/
def pyWords (cs : List Char) : List (List Char) :=
  wordsAux cs []

/-- Python substring containment (needle in hay) on character lists. -/
def listContains (n : List Char) : List Char → Bool
  | [] => n.isEmpty
  | c :: t => n.isPrefixOf (c :: t) || listContains n t

/-! ### Topic match scorer -/

/-- Round-half-to-even to an integer, the rounding used by Python round
on an exact value. -/
def roundHalfEven (q : ℚ) : ℤ :=
  let f := ⌊q⌋
  let r := q - f
  if r < 1 / 2 then f
  else if 1 / 2 < r then f + 1
  else if f % 2 = 0 then f else f + 1

/-- Python round(x, 1) on an exact rational. -/
def round1 (q : ℚ) : ℚ :=
  (roundHalfEven (q * 10) : ℚ) / 10

/-- The matching rule applied by _calculate_topic_match to one lowered
topic: some word of the topic with more than 3 characters occurs as a
substring of the lowered idea text. -/
def topicMatched (idea_text : List Char) (topic : List Char) : Bool :=
  (pyWords topic).any (fun w => decide (3 < w.length) && listContains w idea_text)

/-- SearcherAgent._calculate_topic_match. Returns the fixed neutral 3
when no topics are supplied; otherwise counts matched topics using
topicMatched and maps the match ratio linearly onto 1.5..5.0, rounded to
one decimal. The inner early return of 2.5 is unreachable (the lowered
topic list is empty exactly when the input list is) but is kept from the
source. -/
def calculate_topic_match (idea : Idea) (user_topics : List String) : ℚ :=
  if user_topics = [] then 3
  else
    let idea_text := lowerData (idea.title ++ " " ++ idea.description)
    let topics_lower := user_topics.map lowerData
    let matchCount := topics_lower.countP (fun t => topicMatched idea_text t)
    if topics_lower = [] then 5 / 2
    else
      let ratio : ℚ := (matchCount : ℚ) / (topics_lower.length : ℚ)
      round1 (3 / 2 + ratio * (7 / 2))

/-! ### Score extraction and the scored-idea record -/

/-- Python dict key lookup on a parsed JSON value: fails (models a raised
KeyError or TypeError) unless the value is an object holding the key. -/
def jsonGet (j : Json) (k : String) : Option Json :=
  match j with
  | Json.obj fields => fields.lookup k
  | _ => none

/-- The numeric coercion implicitly performed by the composite-score
arithmetic: a number is used as is, a boolean multiplies as 1 or 0
(Python bool is an int); anything else raises a TypeError. -/
def asNumber : Json → Option ℚ
  | Json.num q => some q
  | Json.bool b => some (if b then 1 else 0)
  | _ => none

/-- assessment[key] as consumed by the composite-score expression. -/
def getScore (j : Json) (k : String) : Option ℚ :=
  (jsonGet j k).bind asNumber

/-- One entry of the scored_ideas list built by research_ideas. The
literature_synthesis field is absent (none) until the post-selection
synthesis step fills it for the finalists. -/
structure ScoredIdea where
  idea : Idea
  papers : List Paper
  novelty_assessment : Json
  doability_assessment : Json
  topic_match_score : ℚ
  composite_score : ℚ
  literature_synthesis : Option Json := none

/-- The external collaborators of the ranking engine, reified as oracle
functions. A none outcome of a generative call models the underlying
client raising; some text is the raw response body. The search oracle is
the (never-raising) result of _search_papers for the idea. -/
structure Oracles where
  search : Idea → List Paper
  novelty : Idea → List Paper → Option String
  doability : Idea → List Paper → Option String
  synthesis : Idea → List Paper → Option String

/-- The per-idea body of the research_ideas loop: search, assess novelty
and doability, score topic match, and combine with the fixed 0.3/0.4/0.3
weights. A missing or non-numeric score key in either parsed assessment
makes the composite-score expression raise, modelled as none. -/
def scoreIdea (o : Oracles) (user_topics : List String) (idea : Idea) : Option ScoredIdea :=
  let papers := o.search idea
  let novelty_assessment := assess_novelty (o.novelty idea papers)
  let doability_assessment := assess_doability (o.doability idea papers)
  let topic_match_score := calculate_topic_match idea user_topics
  match getScore novelty_assessment "novelty_score",
        getScore doability_assessment "doability_score" with
  | some ns, some ds =>
    some { idea := idea, papers := papers.take 8,
           novelty_assessment := novelty_assessment,
           doability_assessment := doability_assessment,
           topic_match_score := topic_match_score,
           composite_score := (3 / 10) * ns + (4 / 10) * ds + (3 / 10) * topic_match_score,
           literature_synthesis := none }
  | _, _ => none

/-- The sequential idea loop: the first raised exception aborts the
whole run, there is no per-idea isolation in the source. -/
def scoreAll (o : Oracles) (user_topics : List String) : List Idea → Option (List ScoredIdea)
  | [] => some []
  | idea :: rest =>
    match scoreIdea o user_topics idea with
    | none => none
    | some s => (scoreAll o user_topics rest).map (fun l => s :: l)

/-! ### Stable descending sort

list.sort(key composite_score, reverse True) is a stable sort: descending
by composite score, ties keeping their original relative order. The
insertion sort below has exactly that semantics, pinned down by the
permutation, sortedness and filter-stability lemmas proved later. -/

/-- Insert into a descending-sorted list, after strictly greater keys and
before equal or smaller ones (the stable position for an element that
originally preceded the list). -/
def insertDesc (x : ScoredIdea) : List ScoredIdea → List ScoredIdea
  | [] => [x]
  | y :: ys =>
    if x.composite_score < y.composite_score then y :: insertDesc x ys
    else x :: y :: ys

/-- Stable descending sort by composite score. -/
def sortDesc : List ScoredIdea → List ScoredIdea
  | [] => []
  | x :: xs => insertDesc x (sortDesc xs)

/-! ### Diversity-constrained top-3 selection -/

/-- Size of the intersection of the word sets of two lowered titles:
set(a.split()) and set(b.split()) share this many distinct words. -/
def commonWordCount (a b : List Char) : Nat :=
  (((pyWords a).dedup).filter (fun w => w ∈ pyWords b)).length

/-- The inner diversity check of _select_diverse_top_3: the candidate is
diverse when no already-selected title shares more than 3 words with it. -/
def isDiverse (selected : List ScoredIdea) (item : ScoredIdea) : Bool :=
  selected.all (fun s =>
    commonWordCount (lowerData item.idea.title) (lowerData s.idea.title) ≤ 3)

/-- The candidate walk of _select_diverse_top_3: stop as soon as 3 are
selected, otherwise admit diverse candidates in order. -/
def diverseLoop (selected : List ScoredIdea) : List ScoredIdea → List ScoredIdea
  | [] => selected
  | item :: rest =>
    if 3 ≤ selected.length then selected
    else if isDiverse selected item then diverseLoop (selected ++ [item]) rest
    else diverseLoop selected rest

/-- SearcherAgent._select_diverse_top_3: lists of at most 3 ideas are
returned unchanged; otherwise the top idea seeds the walk, and if the
walk admits fewer than 3 the plain top 3 by score are taken instead. -/
def select_diverse_top_3 (scored_ideas : List ScoredIdea) : List ScoredIdea :=
  if scored_ideas.length ≤ 3 then scored_ideas
  else
    match scored_ideas with
    | [] => []
    | x :: rest =>
      let top3 := diverseLoop [x] rest
      if top3.length < 3 then scored_ideas.take 3 else top3

/-! ### The ranking engine -/

/-- The dictionary returned by research_ideas. -/
structure RankResult where
  top_ideas : List ScoredIdea
  total_ideas_analyzed : Nat

/-- The post-selection synthesis step: item with the literature_synthesis
key set from one synthesis call on the item's own idea and papers. -/
def addSynthesis (o : Oracles) (item : ScoredIdea) : ScoredIdea :=
  { item with
    literature_synthesis := some (synthesize_literature (o.synthesis item.idea item.papers)) }

/-- SearcherAgent.research_ideas: score every idea sequentially, sort by
composite score (stable, descending), select a diverse top 3, synthesize
literature for exactly the finalists, and report the total analyzed. -/
def research_ideas (o : Oracles) (ideas : List Idea) (user_topics : List String) :
    Option RankResult :=
  match scoreAll o user_topics ideas with
  | none => none
  | some scored_ideas =>
    let sorted := sortDesc scored_ideas
    let top_ideas := select_diverse_top_3 sorted
    some { top_ideas := top_ideas.map (addSynthesis o),
           total_ideas_analyzed := ideas.length }

/-! ### External search adapter (_search_papers)

Transport and XML parsing are reified per attempt: an attempt either
raises a requests RequestException (timeouts, connection errors, and
raise_for_status HTTP errors), raises a non-transport error while the
response is parsed (ET.fromstring on malformed XML), or yields a parsed
feed of entries. Each atom entry is modelled by the text of the elements
the code reads; a missing element is none. The mandatory sleeps are
recorded in the run record: one fixed 3 second delay per retry, and the
3 second rate-limit sleep on the success path. -/

/-- One atom entry of the arXiv response, as read by the code. -/
structure ArxivEntry where
  title : Option String
  summary : Option String
  published : Option String
  idUrl : Option String
  authors : List (Option String)
deriving DecidableEq

/-- Outcome of one fetch attempt. -/
inductive FetchOutcome where
  | transportError
  | malformed
  | feed (entries : List ArxivEntry)
deriving DecidableEq

/-- Python int() applied to a string: optional surrounding whitespace,
optional sign, then at least one digit. -/
def pyInt (s : String) : Option Int :=
  let cs := pyStrip s.data
  let signed : Bool × List Char :=
    match cs with
    | '-' :: r => (true, r)
    | '+' :: r => (false, r)
    | _ => (false, cs)
  let p := takeDigits signed.2
  if p.1 = [] ∨ p.2 ≠ [] then none
  else some (if signed.1 then -(digitsVal p.1 : Int) else (digitsVal p.1 : Int))

/-- Year extraction: int(published.text[:4]) with the failure swallowed
to None. -/
def parseYear (published : Option String) : Option Int :=
  published.bind (fun p => pyInt (String.mk (p.data.take 4)))

/-- Formatting of one entry. Entries whose title or summary element is
missing produce nothing; otherwise title and abstract are trimmed, their
newlines replaced by spaces, the abstract truncated to 500 characters,
the first 3 present author names kept, and the id text (or an empty
string when the element is missing) used as the url. -/
def formatEntry (e : ArxivEntry) : Option Paper :=
  match e.title, e.summary with
  | some t, some s =>
    some { title := String.mk (newlineToSpace (pyStrip t.data)),
           abstract := String.mk ((newlineToSpace (pyStrip s.data)).take 500),
           year := parseYear e.published,
           citations := 0,
           authors := (e.authors.take 3).filterMap id,
           url := e.idUrl.getD "" }
  | _, _ => none

/-- The per-response formatting loop of _search_papers: entries missing
title or abstract are dropped, all others kept in order. No truncation
to the requested limit happens here. -/
def formatEntries (entries : List ArxivEntry) : List Paper :=
  entries.filterMap formatEntry

/-- The observable outcome of one _search_papers call: the returned
papers, how many attempts were made, and the mandatory sleeps taken
(3 seconds per retry, 3 seconds after a successful fetch). -/
structure SearchRun where
  papers : List Paper
  attempts : Nat
  retryDelays : List Nat
  successDelays : List Nat
deriving DecidableEq

/-- The retry loop of _search_papers over range(max_retries): a feed
formats and returns after the rate-limit sleep; a malformed response
returns an empty list at once; a transport error retries after a 3
second delay unless this was the final attempt. -/
def searchLoop (fetch : Nat → FetchOutcome) (max_retries : Nat) (attempt : Nat) :
    Nat → SearchRun
  | 0 => { papers := [], attempts := 0, retryDelays := [], successDelays := [] }
  | remaining + 1 =>
    match fetch attempt with
    | FetchOutcome.feed entries =>
      { papers := formatEntries entries, attempts := 1, retryDelays := [],
        successDelays := [3] }
    | FetchOutcome.malformed =>
      { papers := [], attempts := 1, retryDelays := [], successDelays := [] }
    | FetchOutcome.transportError =>
      if attempt < max_retries - 1 then
        let rest := searchLoop fetch max_retries (attempt + 1) remaining
        { papers := rest.papers, attempts := rest.attempts + 1,
          retryDelays := 3 :: rest.retryDelays, successDelays := rest.successDelays }
      else
        { papers := [], attempts := 1, retryDelays := [], successDelays := [] }

/-- SearcherAgent._search_papers with its source defaults limit=20 and
max_retries=3. The limit is forwarded to the backend only inside the
request url (searchQueryURL below); the local processing never truncates
with it. The function is total: every exception inside the loop is
caught, so the adapter itself never raises. -/
def search_papers (fetch : Nat → FetchOutcome) (limit : Nat := 20) (max_retries : Nat := 3) :
    SearchRun :=
  let _ := limit
  searchLoop fetch max_retries 0 max_retries

/-- The arXiv request url built by _search_papers from the (url-quoted)
query text and the limit: the only place the limit is used. -/
def searchQueryURL (query : String) (limit : Nat) : String :=
  "http://export.arxiv.org/api/query?search_query=all:" ++ query ++
    "&start=0&max_results=" ++ toString limit ++ "&sortBy=relevance&sortOrder=descending"

/-! ### The analyze route guard (app.py) -/

/-- The early-return guards of the analyze route, in source order. -/
inductive AnalyzeGuard where
  | reject (message : String) (status : Nat)
  | accept
deriving DecidableEq

/-- The input-validation prefix of analyze_paper: a falsy job_id gives a
400, an unknown analysis gives a 404, an empty topic list gives a 400;
only then does the pipeline run. There is no emptiness check on the idea
list anywhere on the accepted path. -/
def analyze_guard (job_id : Option String) (analysisFound : Bool) (topics : List String) :
    AnalyzeGuard :=
  if job_id = none ∨ job_id = some "" then
    AnalyzeGuard.reject "job_id is required" 400
  else if ¬ analysisFound then
    AnalyzeGuard.reject "Analysis not found" 404
  else if topics = [] then
    AnalyzeGuard.reject "At least one topic must be selected" 400
  else
    AnalyzeGuard.accept

/-! ### Helper lemmas: the stable descending sort -/

/-- The descending order on scored ideas used by the sort. -/
def scoredGE (a b : ScoredIdea) : Prop :=
  b.composite_score ≤ a.composite_score

theorem insertDesc_perm (x : ScoredIdea) (l : List ScoredIdea) :
    List.Perm (insertDesc x l) (x :: l) := by
  induction l with
  | nil => simp [insertDesc]
  | cons y ys ih =>
    unfold insertDesc
    by_cases h : x.composite_score < y.composite_score
    · simp only [h, if_pos]
      exact (List.Perm.cons y ih).trans (List.Perm.swap x y ys)
    · simp [h]

theorem sortDesc_perm (l : List ScoredIdea) : List.Perm (sortDesc l) l := by
  induction l with
  | nil => simp [sortDesc]
  | cons x xs ih =>
    exact (insertDesc_perm x (sortDesc xs)).trans (List.Perm.cons x ih)

theorem insertDesc_pairwise (x : ScoredIdea) (l : List ScoredIdea)
    (hl : List.Pairwise scoredGE l) : List.Pairwise scoredGE (insertDesc x l) := by
  induction l with
  | nil => simp [insertDesc, List.pairwise_singleton]
  | cons y ys ih =>
    unfold insertDesc
    rcases List.pairwise_cons.mp hl with ⟨hy, hys⟩
    by_cases h : x.composite_score < y.composite_score
    · rw [if_pos h]
      refine List.pairwise_cons.mpr ⟨?_, ih hys⟩
      intro z hz
      have hz2 : z ∈ x :: ys := (insertDesc_perm x ys).mem_iff.mp hz
      rcases List.mem_cons.mp hz2 with hz3 | hz3
      · subst hz3; exact le_of_lt h
      · exact hy z hz3
    · rw [if_neg h]
      push_neg at h
      refine List.pairwise_cons.mpr ⟨?_, hl⟩
      intro z hz
      rcases List.mem_cons.mp hz with hz3 | hz3
      · subst hz3; exact h
      · exact le_trans (hy z hz3) h

theorem sortDesc_pairwise (l : List ScoredIdea) : List.Pairwise scoredGE (sortDesc l) := by
  induction l with
  | nil => simp [sortDesc]
  | cons x xs ih => exact insertDesc_pairwise x (sortDesc xs) ih

theorem insertDesc_filter_eq (x : ScoredIdea) (l : List ScoredIdea) (q : ℚ)
    (hx : x.composite_score = q) :
    (insertDesc x l).filter (fun y => decide (y.composite_score = q)) =
      x :: l.filter (fun y => decide (y.composite_score = q)) := by
  induction l with
  | nil => simp [insertDesc, hx]
  | cons y ys ih =>
    unfold insertDesc
    by_cases h : x.composite_score < y.composite_score
    · have hyq : ¬ (y.composite_score = q) := by
        intro hq
        rw [hx, hq] at h
        exact lt_irrefl _ h
      rw [if_pos h]
      simp [List.filter_cons, hyq, ih]
    · rw [if_neg h]
      simp [List.filter_cons, hx]

theorem insertDesc_filter_ne (x : ScoredIdea) (l : List ScoredIdea) (q : ℚ)
    (hx : ¬ x.composite_score = q) :
    (insertDesc x l).filter (fun y => decide (y.composite_score = q)) =
      l.filter (fun y => decide (y.composite_score = q)) := by
  induction l with
  | nil => simp [insertDesc, hx]
  | cons y ys ih =>
    unfold insertDesc
    by_cases h : x.composite_score < y.composite_score
    · rw [if_pos h]
      simp only [List.filter_cons, ih]
    · rw [if_neg h]
      simp [List.filter_cons, hx]

theorem sortDesc_filter (l : List ScoredIdea) (q : ℚ) :
    (sortDesc l).filter (fun y => decide (y.composite_score = q)) =
      l.filter (fun y => decide (y.composite_score = q)) := by
  induction l with
  | nil => rfl
  | cons x xs ih =>
    unfold sortDesc
    by_cases hx : x.composite_score = q
    · rw [insertDesc_filter_eq x (sortDesc xs) q hx, ih]
      simp [List.filter_cons, hx]
    · rw [insertDesc_filter_ne x (sortDesc xs) q hx, ih]
      simp [List.filter_cons, hx]

/-! ### Helper lemmas: diversity selection -/

theorem diverseLoop_append (selected rest : List ScoredIdea) :
    ∃ t, List.Sublist t rest ∧ diverseLoop selected rest = selected ++ t := by
  induction rest generalizing selected with
  | nil => exact ⟨[], List.Sublist.refl [], by simp [diverseLoop]⟩
  | cons item r ih =>
    unfold diverseLoop
    by_cases h3 : 3 ≤ selected.length
    · rw [if_pos h3]
      exact ⟨[], List.nil_sublist _, by simp⟩
    · rw [if_neg h3]
      by_cases hd : isDiverse selected item
      · rw [if_pos hd]
        rcases ih (selected ++ [item]) with ⟨t, ht, heq⟩
        exact ⟨item :: t, List.Sublist.cons₂ item ht, by simp [heq]⟩
      · rw [if_neg hd]
        rcases ih selected with ⟨t, ht, heq⟩
        exact ⟨t, List.Sublist.cons item ht, heq⟩

theorem diverseLoop_length_le (selected rest : List ScoredIdea)
    (h : selected.length ≤ 3) : (diverseLoop selected rest).length ≤ 3 := by
  induction rest generalizing selected with
  | nil => simp only [diverseLoop]; exact h
  | cons item r ih =>
    unfold diverseLoop
    by_cases h3 : 3 ≤ selected.length
    · rw [if_pos h3]; exact h
    · rw [if_neg h3]
      push_neg at h3
      by_cases hd : isDiverse selected item
      · rw [if_pos hd]
        exact ih (selected ++ [item]) (by simp; omega)
      · rw [if_neg hd]
        exact ih selected h

theorem select_length_le (l : List ScoredIdea) : (select_diverse_top_3 l).length ≤ 3 := by
  unfold select_diverse_top_3
  by_cases h : l.length ≤ 3
  · rw [if_pos h]; exact h
  · rw [if_neg h]
    match l with
    | [] => simp
    | x :: rest =>
      simp only
      by_cases hl : (diverseLoop [x] rest).length < 3
      · rw [if_pos hl]
        simp
      · rw [if_neg hl]
        exact diverseLoop_length_le [x] rest (by simp)

theorem select_sublist (l : List ScoredIdea) : List.Sublist (select_diverse_top_3 l) l := by
  unfold select_diverse_top_3
  by_cases h : l.length ≤ 3
  · rw [if_pos h]
  · rw [if_neg h]
    match l with
    | [] => simp
    | x :: rest =>
      simp only
      by_cases hl : (diverseLoop [x] rest).length < 3
      · rw [if_pos hl]
        exact List.take_sublist 3 (x :: rest)
      · rw [if_neg hl]
        rcases diverseLoop_append [x] rest with ⟨t, ht, heq⟩
        rw [heq]
        exact List.Sublist.cons₂ x ht

theorem select_head (l : List ScoredIdea) (h : 3 < l.length) :
    (select_diverse_top_3 l).head? = l.head? := by
  unfold select_diverse_top_3
  rw [if_neg (by omega)]
  match l with
  | [] => simp at h
  | x :: rest =>
    simp only
    by_cases hl : (diverseLoop [x] rest).length < 3
    · rw [if_pos hl]
      simp [List.take_cons]
    · rw [if_neg hl]
      rcases diverseLoop_append [x] rest with ⟨t, ht, heq⟩
      rw [heq]
      simp

/-! ### Helper lemmas: score extraction and the idea loop -/

theorem getScore_noveltyDefault : getScore noveltyDefault "novelty_score" = some 3 := by
  simp [getScore, noveltyDefault, jsonGet, asNumber, List.lookup]

theorem getScore_doabilityDefault : getScore doabilityDefault "doability_score" = some 3 := by
  simp [getScore, doabilityDefault, jsonGet, asNumber, List.lookup]

theorem scoreIdea_some_inv (o : Oracles) (topics : List String) (idea : Idea)
    (p : ScoredIdea) (h : scoreIdea o topics idea = some p) :
    ∃ ns ds,
      getScore p.novelty_assessment "novelty_score" = some ns ∧
      getScore p.doability_assessment "doability_score" = some ds ∧
      p.composite_score = (3 / 10) * ns + (4 / 10) * ds + (3 / 10) * p.topic_match_score ∧
      p.topic_match_score = calculate_topic_match idea topics ∧
      p.literature_synthesis = none := by
  unfold scoreIdea at h
  simp only [] at h
  split at h
  case h_1 ns ds hns hds =>
    rcases Option.some.inj h with rfl
    exact ⟨ns, ds, hns, hds, rfl, rfl, rfl⟩
  case h_2 => exact absurd h (by simp)

theorem scoreAll_mem (o : Oracles) (topics : List String) (ideas : List Idea)
    (scored : List ScoredIdea) (h : scoreAll o topics ideas = some scored)
    (p : ScoredIdea) (hp : p ∈ scored) :
    ∃ idea, scoreIdea o topics idea = some p := by
  induction ideas generalizing scored with
  | nil =>
    unfold scoreAll at h
    rcases Option.some.inj h with rfl
    simp at hp
  | cons idea rest ih =>
    unfold scoreAll at h
    cases hs : scoreIdea o topics idea with
    | none => rw [hs] at h; simp at h
    | some s =>
      rw [hs] at h
      cases hr : scoreAll o topics rest with
      | none => rw [hr] at h; simp at h
      | some l =>
        rw [hr] at h
        simp only [Option.map_some] at h
        rcases Option.some.inj h with rfl
        rcases List.mem_cons.mp hp with rfl | hmem
        · exact ⟨idea, hs⟩
        · exact ih l hr hmem

theorem scoreAll_lit_none (o : Oracles) (topics : List String) (ideas : List Idea)
    (scored : List ScoredIdea) (h : scoreAll o topics ideas = some scored)
    (p : ScoredIdea) (hp : p ∈ scored) : p.literature_synthesis = none := by
  rcases scoreAll_mem o topics ideas scored h p hp with ⟨idea, hidea⟩
  rcases scoreIdea_some_inv o topics idea p hidea with ⟨_, _, _, _, _, _, hlit⟩
  exact hlit

theorem research_ideas_inv (o : Oracles) (ideas : List Idea) (topics : List String)
    (r : RankResult) (h : research_ideas o ideas topics = some r) :
    ∃ scored, scoreAll o topics ideas = some scored ∧
      r.top_ideas = (select_diverse_top_3 (sortDesc scored)).map (addSynthesis o) ∧
      r.total_ideas_analyzed = ideas.length := by
  unfold research_ideas at h
  cases hs : scoreAll o topics ideas with
  | none => rw [hs] at h; simp at h
  | some scored =>
    rw [hs] at h
    rcases Option.some.inj h with rfl
    exact ⟨scored, rfl, rfl, rfl⟩

/-! ### Helper lemmas: rounding and topic-score bounds -/

theorem roundHalfEven_bounds (t : ℚ) (m M : ℤ) (h1 : (m : ℚ) ≤ t) (h2 : t ≤ (M : ℚ)) :
    m ≤ roundHalfEven t ∧ roundHalfEven t ≤ M := by
  have hfm : m ≤ ⌊t⌋ := Int.le_floor.mpr h1
  have hfM : ⌊t⌋ ≤ M := by
    have hmono := Int.floor_le_floor h2
    simpa using hmono
  unfold roundHalfEven
  by_cases hr1 : t - ⌊t⌋ < 1 / 2
  · rw [if_pos hr1]; exact ⟨hfm, hfM⟩
  · rw [if_neg hr1]
    push_neg at hr1
    have hub : ⌊t⌋ + 1 ≤ M := by
      by_contra hc
      push_neg at hc
      have hMf : ⌊t⌋ = M := le_antisymm hfM (by omega)
      rw [hMf] at hr1
      linarith
    by_cases hr2 : 1 / 2 < t - ⌊t⌋
    · rw [if_pos hr2]; exact ⟨by omega, hub⟩
    · rw [if_neg hr2]
      by_cases hpar : ⌊t⌋ % 2 = 0
      · rw [if_pos hpar]; exact ⟨hfm, hfM⟩
      · rw [if_neg hpar]; exact ⟨by omega, hub⟩

theorem round1_bounds (q : ℚ) (h1 : 3 / 2 ≤ q) (h2 : q ≤ 5) :
    1 ≤ round1 q ∧ round1 q ≤ 5 := by
  have hb := roundHalfEven_bounds (q * 10) 15 50 (by push_cast; linarith) (by push_cast; linarith)
  unfold round1
  constructor
  · have : (15 : ℚ) ≤ (roundHalfEven (q * 10) : ℚ) := by exact_mod_cast hb.1
    linarith
  · have : ((roundHalfEven (q * 10) : ℤ) : ℚ) ≤ 50 := by exact_mod_cast hb.2
    linarith

theorem round1_formula_range (c n : ℕ) (hn : 0 < n) (hc : c ≤ n) :
    1 ≤ round1 (3 / 2 + ((c : ℚ) / (n : ℚ)) * (7 / 2)) ∧
      round1 (3 / 2 + ((c : ℚ) / (n : ℚ)) * (7 / 2)) ≤ 5 := by
  have hn0 : (0 : ℚ) < (n : ℚ) := by exact_mod_cast hn
  have hr0 : (0 : ℚ) ≤ (c : ℚ) / (n : ℚ) := by positivity
  have hr1 : (c : ℚ) / (n : ℚ) ≤ 1 := by
    rw [div_le_one hn0]
    exact_mod_cast hc
  exact round1_bounds _ (by nlinarith) (by nlinarith)

theorem calculate_topic_match_range (idea : Idea) (topics : List String) :
    1 ≤ calculate_topic_match idea topics ∧ calculate_topic_match idea topics ≤ 5 := by
  unfold calculate_topic_match
  by_cases h0 : topics = []
  · rw [if_pos h0]; norm_num
  · rw [if_neg h0]
    simp only []
    by_cases h1 : List.map lowerData topics = []
    · rw [if_pos h1]; norm_num
    · rw [if_neg h1]
      exact round1_formula_range _ _ (List.length_pos.mpr h1) (List.countP_le_length _)

/-! ## Claim C1: composite score formula and range -/

/-- C1 (amended): for every returned ScoredIdea the composite score
equals 0.3 * novelty + 0.4 * doability + 0.3 * topic match exactly, and
the topic-match component always lies in [1, 5]; the composite lies in
[1, 5] whenever the backend-supplied novelty and doability scores lie in
[1, 5]. The unconditional range claim fails because the code never clamps
backend scores (see the counterexample). -/
theorem C1_composite : ∀ (o : Oracles) (ideas : List Idea) (topics : List String)
    (r : RankResult), research_ideas o ideas topics = some r →
    ∀ item ∈ r.top_ideas,
      ∃ ns ds, getScore item.novelty_assessment "novelty_score" = some ns ∧
        getScore item.doability_assessment "doability_score" = some ds ∧
        item.composite_score = (3 / 10) * ns + (4 / 10) * ds + (3 / 10) * item.topic_match_score ∧
        1 ≤ item.topic_match_score ∧ item.topic_match_score ≤ 5 ∧
        (1 ≤ ns → ns ≤ 5 → 1 ≤ ds → ds ≤ 5 →
          1 ≤ item.composite_score ∧ item.composite_score ≤ 5) := by
  intro o ideas topics r h item hitem
  rcases research_ideas_inv o ideas topics r h with ⟨scored, hs, htop, _⟩
  rw [htop] at hitem
  rcases List.mem_map.mp hitem with ⟨p, hpsel, rfl⟩
  have hpsorted : p ∈ sortDesc scored := (select_sublist (sortDesc scored)).subset hpsel
  have hpscored : p ∈ scored := (sortDesc_perm scored).mem_iff.mp hpsorted
  rcases scoreAll_mem o topics ideas scored hs p hpscored with ⟨idea, hidea⟩
  rcases scoreIdea_some_inv o topics idea p hidea with ⟨ns, ds, hns, hds, hcomp, htms, _⟩
  have hrange := calculate_topic_match_range idea topics
  rw [← htms] at hrange
  simp only [addSynthesis]
  refine ⟨ns, ds, hns, hds, hcomp, hrange.1, hrange.2, ?_⟩
  intro hn1 hn5 hd1 hd5
  constructor
  · rw [hcomp]; nlinarith [hrange.1, hrange.2]
  · rw [hcomp]; nlinarith [hrange.1, hrange.2]

def w1Idea : Idea := ⟨"Learning dynamics", ""⟩

def w1O : Oracles :=
  { search := fun _ => [],
    novelty := fun _ _ => some "\x7b\"novelty_score\": 4\x7d",
    doability := fun _ _ => some "\x7b\"doability_score\": 5\x7d",
    synthesis := fun _ _ => none }

def w1Item : ScoredIdea :=
  ⟨w1Idea, [], Json.obj [("novelty_score", Json.num 4)],
    Json.obj [("doability_score", Json.num 5)], 5, 47 / 10, some synthesisDefault⟩

def w1R : RankResult := ⟨[w1Item], 1⟩

/-- Witness for C1_composite at a concrete run: the backend answers 4 and
5, the single topic matches, and the composite 4.7 is in range. -/
theorem C1_composite_witness :
    research_ideas w1O [w1Idea] ["deep learning"] = some w1R ∧
    1 ≤ w1Item.composite_score ∧ w1Item.composite_score ≤ 5 := by
  have hrun : research_ideas w1O [w1Idea] ["deep learning"] = some w1R := by
    simp [research_ideas, scoreAll, scoreIdea, w1O, w1Idea, w1Item, w1R, assess_novelty,
      assess_doability, parseResponse, extractBraced, strFind, strRFind, jsonLoads,
      parseVal, parseRun, parseStrBody, parseNumber, takeDigits, digitsVal, insertKey,
      skipWs, isJsonWs, lbrace, rbrace, getScore, jsonGet, asNumber, calculate_topic_match,
      lowerData, topicMatched, pyWords, wordsAux, listContains, round1, roundHalfEven,
      sortDesc, insertDesc, select_diverse_top_3, diverseLoop, isDiverse, addSynthesis,
      synthesize_literature, List.lookup, List.countP_cons, List.countP_nil]
    norm_num
  obtain ⟨ns, ds, hns, hds, hcomp, ht1, ht5, hrange⟩ :=
    C1_composite w1O [w1Idea] ["deep learning"] w1R hrun w1Item (by simp [w1R])
  have hns4 : getScore w1Item.novelty_assessment "novelty_score" = some 4 := by
    simp [w1Item, getScore, jsonGet, asNumber, List.lookup]
  have hds5 : getScore w1Item.doability_assessment "doability_score" = some 5 := by
    simp [w1Item, getScore, jsonGet, asNumber, List.lookup]
  have hnse : ns = 4 := by
    have := hns4.symm.trans hns
    exact (Option.some.inj this).symm
  have hdse : ds = 5 := by
    have := hds5.symm.trans hds
    exact (Option.some.inj this).symm
  subst hnse hdse
  exact ⟨hrun, hrange (by norm_num) (by norm_num) (by norm_num) (by norm_num)⟩

def c1Idea : Idea := ⟨"t", "d"⟩

def c1O : Oracles :=
  { search := fun _ => [],
    novelty := fun _ _ => some "\x7b\"novelty_score\": 100\x7d",
    doability := fun _ _ => none,
    synthesis := fun _ _ => none }

def c1Item : ScoredIdea :=
  ⟨c1Idea, [], Json.obj [("novelty_score", Json.num 100)], doabilityDefault,
    3, 321 / 10, some synthesisDefault⟩

/-- C1 counterexample: a backend response with novelty_score 100 is used
unclamped, so a returned ScoredIdea carries composite score 32.1, far
outside [1, 5]; the claim that composite_score always lies in [1, 5] is
false of the code. -/
theorem C1_counterexample :
    research_ideas c1O [c1Idea] [] = some ⟨[c1Item], 1⟩ ∧
    c1Item.composite_score = 321 / 10 ∧ ¬ (c1Item.composite_score ≤ 5) := by
  refine ⟨?_, rfl, by norm_num [c1Item]⟩
  simp [research_ideas, scoreAll, scoreIdea, c1O, c1Idea, c1Item, assess_novelty,
    assess_doability, parseResponse, extractBraced, strFind, strRFind, jsonLoads,
    parseVal, parseRun, parseStrBody, parseNumber, takeDigits, digitsVal, insertKey,
    skipWs, isJsonWs, lbrace, rbrace, getScore, jsonGet, asNumber, calculate_topic_match,
    sortDesc, insertDesc, select_diverse_top_3, diverseLoop, isDiverse, addSynthesis,
    synthesize_literature, List.lookup, noveltyDefault, doabilityDefault, synthesisDefault]
  norm_num

/-! ## Claim C2: degradation on missing/malformed backend responses -/

/-- C2 (amended): a failed backend call or an unparseable response never
aborts: each assessor returns its documented neutral default (score 3,
Unknown fields) and the whole pipeline completes with those defaults.
However, a successfully parsed response that merely lacks the score key
is returned verbatim and makes the ranking engine itself raise (see the
counterexample), so the degradation only covers call and parse failures. -/
theorem C2_degrade :
    assess_novelty none = noveltyDefault ∧
    assess_doability none = doabilityDefault ∧
    (∀ text, parseResponse text = none →
      assess_novelty (some text) = noveltyDefault ∧
      assess_doability (some text) = doabilityDefault) ∧
    (∀ (o : Oracles) (ideas : List Idea) (topics : List String),
      (∀ i p s, o.novelty i p = some s → parseResponse s = none) →
      (∀ i p s, o.doability i p = some s → parseResponse s = none) →
      ∃ r, research_ideas o ideas topics = some r ∧
        r.total_ideas_analyzed = ideas.length ∧
        ∀ item ∈ r.top_ideas,
          item.novelty_assessment = noveltyDefault ∧
          item.doability_assessment = doabilityDefault) := by
  refine ⟨rfl, rfl, ?_, ?_⟩
  · intro text h
    constructor
    · simp [assess_novelty, h]
    · simp [assess_doability, h]
  · intro o ideas topics hn hd
    have hnov : ∀ i p, assess_novelty (o.novelty i p) = noveltyDefault := by
      intro i p
      cases hcase : o.novelty i p with
      | none => rfl
      | some s => simp [assess_novelty, hn i p s hcase]
    have hdoa : ∀ i p, assess_doability (o.doability i p) = doabilityDefault := by
      intro i p
      cases hcase : o.doability i p with
      | none => rfl
      | some s => simp [assess_doability, hd i p s hcase]
    have hscore : ∀ idea, scoreIdea o topics idea =
        some ⟨idea, (o.search idea).take 8, noveltyDefault, doabilityDefault,
          calculate_topic_match idea topics,
          (3 / 10) * 3 + (4 / 10) * 3 + (3 / 10) * calculate_topic_match idea topics,
          none⟩ := by
      intro idea
      unfold scoreIdea
      simp only [hnov, hdoa, getScore_noveltyDefault, getScore_doabilityDefault]
    have hall : ∀ l : List Idea, ∃ scored, scoreAll o topics l = some scored ∧
        ∀ q ∈ scored, q.novelty_assessment = noveltyDefault ∧
          q.doability_assessment = doabilityDefault := by
      intro l
      induction l with
      | nil => exact ⟨[], rfl, by simp⟩
      | cons idea rest ih =>
        rcases ih with ⟨scored, hsc, hprop⟩
        refine ⟨(⟨idea, (o.search idea).take 8, noveltyDefault, doabilityDefault,
          calculate_topic_match idea topics,
          (3 / 10) * 3 + (4 / 10) * 3 + (3 / 10) * calculate_topic_match idea topics,
          none⟩ : ScoredIdea) :: scored, ?_, ?_⟩
        · unfold scoreAll
          rw [hscore idea, hsc]
          simp
        · intro q hq
          rcases List.mem_cons.mp hq with rfl | hq2
          · exact ⟨rfl, rfl⟩
          · exact hprop q hq2
    rcases hall ideas with ⟨scored, hsc, hprop⟩
    refine ⟨{ top_ideas := (select_diverse_top_3 (sortDesc scored)).map (addSynthesis o),
              total_ideas_analyzed := ideas.length }, ?_, rfl, ?_⟩
    · unfold research_ideas
      rw [hsc]
    · intro item hitem
      rcases List.mem_map.mp hitem with ⟨p, hpsel, rfl⟩
      have hp : p ∈ scored :=
        (sortDesc_perm scored).mem_iff.mp ((select_sublist _).subset hpsel)
      have hdefaults := hprop p hp
      simp only [addSynthesis]
      exact hdefaults

def c2wIdea : Idea := ⟨"Robust parsing", "d"⟩

def c2wO : Oracles :=
  { search := fun _ => [],
    novelty := fun _ _ => some "no json",
    doability := fun _ _ => none,
    synthesis := fun _ _ => none }

/-- Witness for C2_degrade at a concrete oracle whose novelty response is
unparseable prose and whose doability call raises. -/
theorem C2_degrade_witness :
    ∃ r, research_ideas c2wO [c2wIdea] ["x"] = some r ∧
      r.total_ideas_analyzed = 1 ∧
      ∀ item ∈ r.top_ideas, item.novelty_assessment = noveltyDefault ∧
        item.doability_assessment = doabilityDefault := by
  have h1 : ∀ i p s, c2wO.novelty i p = some s → parseResponse s = none := by
    intro i p s h
    simp only [c2wO] at h
    have hs : s = "no json" := (Option.some.inj h).symm
    subst hs
    simp [parseResponse, extractBraced, strFind, strRFind, jsonLoads, parseVal, parseRun,
      parseNumber, takeDigits, skipWs, isJsonWs, lbrace, rbrace]
  have h2 : ∀ i p s, c2wO.doability i p = some s → parseResponse s = none := by
    intro i p s h
    simp [c2wO] at h
  exact C2_degrade.2.2.2 c2wO [c2wIdea] ["x"] h1 h2

def c2Idea : Idea := ⟨"t", "d"⟩

def c2O : Oracles :=
  { search := fun _ => [],
    novelty := fun _ _ => some "\x7b\"explored\": \"No\"\x7d",
    doability := fun _ _ => none,
    synthesis := fun _ _ => none }

/-- C2 counterexample: the novelty backend returns valid JSON that merely
lacks the novelty_score key; the assessor hands it through verbatim and
the composite-score lookup raises, so the whole run aborts (none) instead
of completing with a neutral default, contradicting the claim. -/
theorem C2_counterexample :
    parseResponse "\x7b\"explored\": \"No\"\x7d" =
      some (Json.obj [("explored", Json.str "No")]) ∧
    research_ideas c2O [c2Idea] ["x"] = none := by
  constructor
  · simp [parseResponse, extractBraced, strFind, strRFind, jsonLoads, parseVal, parseRun,
      parseStrBody, insertKey, skipWs, isJsonWs, lbrace, rbrace]
  · simp [research_ideas, scoreAll, scoreIdea, c2O, c2Idea, assess_novelty, assess_doability,
      parseResponse, extractBraced, strFind, strRFind, jsonLoads, parseVal, parseRun,
      parseStrBody, parseNumber, takeDigits, digitsVal, insertKey, skipWs, isJsonWs,
      lbrace, rbrace, getScore, jsonGet, asNumber, List.lookup, doabilityDefault]

/-! ## Claim C3: diversity selection algorithm -/

/-- The admission test in the spec's wording: the candidate is admitted
only if, for every already-selected idea, the word-set intersection of
their lowered titles has size at most 3. -/
def specAdmit (chosen : List ScoredIdea) (cand : ScoredIdea) : Bool :=
  decide (∀ s ∈ chosen,
    commonWordCount (lowerData cand.idea.title) (lowerData s.idea.title) ≤ 3)

/-- The candidate walk in the spec's wording: walk the remainder in
sorted order, admit by specAdmit, stop once 3 are selected. -/
def specWalk (chosen : List ScoredIdea) : List ScoredIdea → List ScoredIdea
  | [] => chosen
  | cand :: rest =>
    if chosen.length = 3 then chosen
    else if specAdmit chosen cand then specWalk (chosen ++ [cand]) rest
    else specWalk chosen rest

/-- Diversity selection in the spec's wording: on more than 3 candidates,
always keep the highest-scored idea, walk the remainder, and discard the
filter in favour of the plain top 3 when fewer than 3 were admitted; on
at most 3 candidates the input is returned unchanged. -/
def specSelectDiverse (ranked : List ScoredIdea) : List ScoredIdea :=
  if ranked.length ≤ 3 then ranked
  else
    match ranked with
    | [] => []
    | top :: rest =>
      let walked := specWalk [top] rest
      if walked.length < 3 then ranked.take 3 else walked

theorem isDiverse_eq_specAdmit (sel : List ScoredIdea) (item : ScoredIdea) :
    isDiverse sel item = specAdmit sel item := by
  unfold isDiverse specAdmit
  rw [Bool.eq_iff_iff]
  simp [List.all_eq_true]

theorem diverseLoop_eq_specWalk (rest sel : List ScoredIdea) (h : sel.length ≤ 3) :
    diverseLoop sel rest = specWalk sel rest := by
  induction rest generalizing sel with
  | nil => rfl
  | cons item r ih =>
    unfold diverseLoop specWalk
    by_cases h3 : sel.length = 3
    · rw [if_pos (by omega), if_pos h3]
    · rw [if_neg (by omega), if_neg h3, isDiverse_eq_specAdmit]
      by_cases ha : specAdmit sel item
      · rw [if_pos ha, if_pos ha]
        exact ih (sel ++ [item]) (by simp; omega)
      · rw [if_neg ha, if_neg ha]
        exact ih sel h

/-- C3: the selection procedure is exactly the spec's diversity
selection: identity on lists of at most 3; otherwise the top idea is
always kept (head preserved), candidates are walked in order and admitted
only when every already-selected title shares at most 3 words, the walk
stops at 3, and a walk that admitted fewer than 3 is discarded for the
plain top 3. -/
theorem C3_diversity :
    (∀ l : List ScoredIdea, select_diverse_top_3 l = specSelectDiverse l) ∧
    (∀ l : List ScoredIdea, 3 < l.length →
      (select_diverse_top_3 l).head? = l.head?) := by
  constructor
  · intro l
    unfold select_diverse_top_3 specSelectDiverse
    by_cases h : l.length ≤ 3
    · rw [if_pos h, if_pos h]
    · rw [if_neg h, if_neg h]
      match l with
      | [] => rfl
      | x :: rest =>
        simp only
        rw [diverseLoop_eq_specWalk rest [x] (by simp)]
  · exact select_head

def c3A : ScoredIdea := ⟨⟨"alpha methods", ""⟩, [], Json.null, Json.null, 3, 4, none⟩

def c3B : ScoredIdea := ⟨⟨"beta structures", ""⟩, [], Json.null, Json.null, 3, 3, none⟩

def c3C : ScoredIdea := ⟨⟨"gamma systems", ""⟩, [], Json.null, Json.null, 3, 2, none⟩

def c3D : ScoredIdea := ⟨⟨"delta models", ""⟩, [], Json.null, Json.null, 3, 1, none⟩

/-- Witness for C3_diversity on a concrete 4-element sorted list: the
head of the selection is the top-scored idea. -/
theorem C3_diversity_witness :
    (select_diverse_top_3 [c3A, c3B, c3C, c3D]).head? = some c3A :=
  (C3_diversity.2 [c3A, c3B, c3C, c3D] (by simp)).trans (by simp)

/-! ## Claim C4: topic match scoring -/

/-- The matching rule exactly as the claim states it: a topic counts as
matched iff the whole lowered topic phrase occurs verbatim in the lowered
idea text OR some topic word longer than 3 characters occurs in it. -/
def claimTopicMatched (idea_text : List Char) (topic : List Char) : Bool :=
  listContains topic idea_text ||
    (pyWords topic).any (fun w => decide (3 < w.length) && listContains w idea_text)

/-- The topic-match score exactly as the claim states it, built on
claimTopicMatched. -/
def claimTopicScore (idea : Idea) (user_topics : List String) : ℚ :=
  if user_topics = [] then 3
  else
    let idea_text := lowerData (idea.title ++ " " ++ idea.description)
    let topics_lower := user_topics.map lowerData
    let matchCount := topics_lower.countP (fun t => claimTopicMatched idea_text t)
    round1 (3 / 2 + ((matchCount : ℚ) / (topics_lower.length : ℚ)) * (7 / 2))

/-- C4 counterexample: the topic ai appears verbatim in the idea text,
so the claim's rule scores 5.0, but the code only tests topic words
longer than 3 characters and scores 1.5; the phrase-verbatim clause of
the claim does not exist in the code. -/
theorem C4_counterexample :
    calculate_topic_match ⟨"ai", ""⟩ ["ai"] = 3 / 2 ∧
    claimTopicScore ⟨"ai", ""⟩ ["ai"] = 5 ∧
    ((3 : ℚ) / 2) ≠ 5 := by
  refine ⟨?_, ?_, by norm_num⟩
  · simp [calculate_topic_match, lowerData, topicMatched, pyWords, wordsAux, listContains,
      round1, roundHalfEven, List.countP_cons, List.countP_nil]
    norm_num
  · simp [claimTopicScore, claimTopicMatched, lowerData, pyWords, wordsAux, listContains,
      round1, roundHalfEven, List.countP_cons, List.countP_nil]
    norm_num

/-- C4 (amended): with topics supplied, the score is exactly
round(1.5 + 3.5 * matched/total, 1) where a topic is matched iff one of
its words longer than 3 characters occurs as a substring of the lowered
idea text; the whole-phrase-verbatim clause of the claim is absent from
the code. With no topics the score is the fixed neutral 3. -/
theorem C4_topic_match : ∀ (idea : Idea) (user_topics : List String),
    (user_topics = [] → calculate_topic_match idea user_topics = 3) ∧
    (user_topics ≠ [] →
      calculate_topic_match idea user_topics =
        round1 (3 / 2 +
          (((user_topics.map lowerData).countP
              (fun t => topicMatched (lowerData (idea.title ++ " " ++ idea.description)) t) : ℚ) /
            (user_topics.length : ℚ)) * (7 / 2)) ∧
      ∀ t ∈ user_topics,
        (topicMatched (lowerData (idea.title ++ " " ++ idea.description)) (lowerData t) = true ↔
          ∃ w ∈ pyWords (lowerData t), 3 < w.length ∧
            listContains w (lowerData (idea.title ++ " " ++ idea.description)) = true)) := by
  intro idea user_topics
  constructor
  · intro h
    simp [calculate_topic_match, h]
  · intro h
    constructor
    · unfold calculate_topic_match
      rw [if_neg h]
      simp only []
      rw [if_neg (by simpa using h)]
      simp
    · intro t ht
      unfold topicMatched
      simp [List.any_eq_true]

def w4Idea : Idea := ⟨"Learning dynamics", ""⟩

/-- Witness for C4_topic_match: with the single topic deep learning and
an idea text containing learning, the code scores 5.0. -/
theorem C4_topic_match_witness :
    (["deep learning"] : List String) ≠ [] ∧
    calculate_topic_match w4Idea ["deep learning"] = 5 := by
  refine ⟨by simp, ?_⟩
  rw [((C4_topic_match w4Idea ["deep learning"]).2 (by simp)).1]
  simp [lowerData, topicMatched, pyWords, wordsAux, listContains, w4Idea,
    round1, roundHalfEven, List.countP_cons, List.countP_nil]
  norm_num

/-! ## Claim C5: search adapter retry behaviour -/

/-- C5: the adapter (a total function: it never raises) retries only on
transport failures: when every attempt fails in transport it makes
exactly 3 attempts separated by fixed 3 second delays and returns the
empty list; when an attempt yields a structurally malformed response (a
parse failure, after any number of preceding transport failures) it
returns the empty list immediately from that attempt, with no further
retry. -/
theorem C5_retry :
    (∀ fetch : Nat → FetchOutcome,
      (∀ i, i < 3 → fetch i = FetchOutcome.transportError) →
      search_papers fetch =
        { papers := [], attempts := 3, retryDelays := [3, 3], successDelays := [] }) ∧
    (∀ (fetch : Nat → FetchOutcome) (k : Nat), k < 3 →
      (∀ i, i < k → fetch i = FetchOutcome.transportError) →
      fetch k = FetchOutcome.malformed →
      search_papers fetch =
        { papers := [], attempts := k + 1, retryDelays := List.replicate k 3,
          successDelays := [] }) := by
  constructor
  · intro fetch h
    have h0 := h 0 (by norm_num)
    have h1 := h 1 (by norm_num)
    have h2 := h 2 (by norm_num)
    simp [search_papers, searchLoop, h0, h1, h2]
  · intro fetch k hk hpre hmal
    interval_cases k
    · simp [search_papers, searchLoop, hmal]
    · have h0 := hpre 0 (by norm_num)
      simp [search_papers, searchLoop, h0, hmal]
    · have h0 := hpre 0 (by norm_num)
      have h1 := hpre 1 (by norm_num)
      simp [search_papers, searchLoop, h0, h1, hmal]

/-- Witness for C5_retry: an always-transport-failing adapter makes
exactly 3 attempts and returns the empty list, and an immediately
malformed response returns after one attempt with no retry delay. -/
theorem C5_retry_witness :
    search_papers (fun _ => FetchOutcome.transportError) =
      { papers := [], attempts := 3, retryDelays := [3, 3], successDelays := [] } ∧
    search_papers (fun _ => FetchOutcome.malformed) =
      { papers := [], attempts := 1, retryDelays := [], successDelays := [] } :=
  ⟨C5_retry.1 _ (fun _ _ => rfl),
   C5_retry.2 _ 0 (by norm_num) (fun i h => absurd h (Nat.not_lt_zero i)) rfl⟩

/-! ## Claim C6: per-entry dropping and the result limit -/

def c6Good1 : ArxivEntry :=
  ⟨some "first paper", some "first abstract", some "2020-01-01", some "http://a", [some "A"]⟩

def c6Good2 : ArxivEntry :=
  ⟨some "second paper", some "second abstract", some "2021-01-01", some "http://b", [some "B"]⟩

def c6NoAbstract : ArxivEntry :=
  ⟨some "third paper", none, some "2022-01-01", some "http://c", [some "C"]⟩

/-- C6 counterexample: with result_limit 1 and a response holding two
well-formed entries, the adapter returns 2 records: the limit is never
applied locally, so the returned count can exceed result_limit. -/
theorem C6_counterexample :
    (search_papers (fun _ => FetchOutcome.feed [c6Good1, c6Good2]) 1).papers.length = 2 ∧
    ¬ ((2 : Nat) ≤ 1) := by
  constructor
  · simp [search_papers, searchLoop, formatEntries, formatEntry, c6Good1, c6Good2]
  · norm_num

/-- C6 (amended): an entry missing its title or abstract element is
dropped while every sibling entry is kept in order; the result_limit
parameter is only embedded in the request url (max_results) and the
adapter performs no local truncation, so its output does not depend on
the limit at all and is capped only if the backend honours max_results. -/
theorem C6_drop :
    (∀ (pre post : List ArxivEntry) (e : ArxivEntry),
      e.title = none ∨ e.summary = none →
      formatEntries (pre ++ e :: post) = formatEntries pre ++ formatEntries post) ∧
    (∀ (pre post : List ArxivEntry) (e : ArxivEntry) (p : Paper),
      formatEntry e = some p →
      formatEntries (pre ++ e :: post) = formatEntries pre ++ p :: formatEntries post) ∧
    (∀ (fetch : Nat → FetchOutcome) (limit1 limit2 : Nat),
      search_papers fetch limit1 = search_papers fetch limit2) ∧
    (∀ (fetch : Nat → FetchOutcome) (entries : List ArxivEntry) (limit : Nat),
      fetch 0 = FetchOutcome.feed entries →
      (search_papers fetch limit).papers = formatEntries entries) := by
  refine ⟨?_, ?_, ?_, ?_⟩
  · intro pre post e he
    have hnone : formatEntry e = none := by
      unfold formatEntry
      rcases he with h | h
      · rw [h]
      · rw [h]
        cases ht : e.title <;> simp
    unfold formatEntries
    rw [List.filterMap_append]
    simp [hnone]
  · intro pre post e p hp
    unfold formatEntries
    rw [List.filterMap_append]
    simp [hp]
  · intro fetch limit1 limit2
    rfl
  · intro fetch entries limit h
    simp [search_papers, searchLoop, h]

/-- Witness for C6_drop: the entry without an abstract is dropped while
both siblings around it are kept, and the adapter output is independent
of the requested limit. -/
theorem C6_drop_witness :
    formatEntries ([c6Good1] ++ c6NoAbstract :: [c6Good2]) =
      formatEntries [c6Good1] ++ formatEntries [c6Good2] ∧
    search_papers (fun _ => FetchOutcome.feed [c6Good1, c6Good2]) 1 =
      search_papers (fun _ => FetchOutcome.feed [c6Good1, c6Good2]) 20 :=
  ⟨C6_drop.1 [c6Good1] [c6Good2] c6NoAbstract (Or.inr rfl),
   C6_drop.2.2.1 _ 1 20⟩

/-! ## Claim C7: rank contract, ordering and stability -/

/-- Remove the synthesis field again, to relate finalists to their
pre-synthesis records. -/
def stripSynthesis (item : ScoredIdea) : ScoredIdea :=
  { item with literature_synthesis := none }

/-- C7: every successful run returns at most 3 top ideas, in descending
composite-score order, with total_ideas_analyzed the input length, and
the returned list is (up to the added synthesis field) a sublist of the
stable descending sort of the scored ideas; that sort is a permutation,
is sorted descending, and is stable: for every score value the equal-key
elements keep exactly their original relative order. -/
theorem C7_rank :
    (∀ (o : Oracles) (ideas : List Idea) (topics : List String) (r : RankResult),
      research_ideas o ideas topics = some r →
        r.top_ideas.length ≤ 3 ∧
        List.Pairwise scoredGE r.top_ideas ∧
        r.total_ideas_analyzed = ideas.length ∧
        ∃ scored, scoreAll o topics ideas = some scored ∧
          List.Sublist (r.top_ideas.map stripSynthesis) (sortDesc scored)) ∧
    (∀ l : List ScoredIdea,
      List.Perm (sortDesc l) l ∧ List.Pairwise scoredGE (sortDesc l) ∧
      ∀ q : ℚ, (sortDesc l).filter (fun x => decide (x.composite_score = q)) =
        l.filter (fun x => decide (x.composite_score = q))) := by
  constructor
  · intro o ideas topics r h
    rcases research_ideas_inv o ideas topics r h with ⟨scored, hs, htop, htot⟩
    have hsel : List.Sublist (select_diverse_top_3 (sortDesc scored)) (sortDesc scored) :=
      select_sublist (sortDesc scored)
    have hpair : List.Pairwise scoredGE (select_diverse_top_3 (sortDesc scored)) :=
      (sortDesc_pairwise scored).sublist hsel
    have hfix : ∀ p ∈ select_diverse_top_3 (sortDesc scored),
        stripSynthesis (addSynthesis o p) = p := by
      intro p hp
      have hpsc : p ∈ scored := (sortDesc_perm scored).mem_iff.mp (hsel.subset hp)
      have hlit := scoreAll_lit_none o topics ideas scored hs p hpsc
      unfold stripSynthesis addSynthesis
      cases p
      simp only at hlit
      simp [hlit]
    refine ⟨?_, ?_, htot, scored, hs, ?_⟩
    · rw [htop, List.length_map]
      exact select_length_le (sortDesc scored)
    · rw [htop]
      exact List.Pairwise.map _ (fun a b hab => hab) hpair
    · rw [htop, List.map_map]
      have hmapeq : (select_diverse_top_3 (sortDesc scored)).map
          (stripSynthesis ∘ addSynthesis o) = select_diverse_top_3 (sortDesc scored) := by
        exact (List.map_congr_left (fun a ha => hfix a ha)).trans (List.map_id _)
      rw [hmapeq]
      exact hsel
  · intro l
    exact ⟨sortDesc_perm l, sortDesc_pairwise l, sortDesc_filter l⟩

def w7I1 : Idea := ⟨"learning stuff", ""⟩

def w7I2 : Idea := ⟨"other", ""⟩

def w7O : Oracles :=
  { search := fun _ => [],
    novelty := fun _ _ => none,
    doability := fun _ _ => none,
    synthesis := fun _ _ => none }

def w7T1 : ScoredIdea :=
  ⟨w7I1, [], noveltyDefault, doabilityDefault, 5, 18 / 5, some synthesisDefault⟩

def w7T2 : ScoredIdea :=
  ⟨w7I2, [], noveltyDefault, doabilityDefault, 3 / 2, 51 / 20, some synthesisDefault⟩

def w7R : RankResult := ⟨[w7T1, w7T2], 2⟩

/-- Witness for C7_rank: a concrete 2-idea run whose input arrives in
ascending score order is returned sorted descending, with at most 3
results and the correct total. -/
theorem C7_rank_witness :
    research_ideas w7O [w7I2, w7I1] ["learning"] = some w7R ∧
    w7R.top_ideas.length ≤ 3 ∧ List.Pairwise scoredGE w7R.top_ideas ∧
    w7R.total_ideas_analyzed = 2 := by
  have hrun : research_ideas w7O [w7I2, w7I1] ["learning"] = some w7R := by
    simp [research_ideas, scoreAll, scoreIdea, w7O, w7I1, w7I2, w7T1, w7T2, w7R,
      assess_novelty, assess_doability, getScore, jsonGet, asNumber, List.lookup,
      noveltyDefault, doabilityDefault, synthesisDefault, calculate_topic_match,
      lowerData, topicMatched, pyWords, wordsAux, listContains, round1, roundHalfEven,
      List.countP_cons, List.countP_nil, sortDesc, insertDesc, select_diverse_top_3,
      diverseLoop, isDiverse, addSynthesis, synthesize_literature]
    norm_num [sortDesc, insertDesc, select_diverse_top_3, diverseLoop, isDiverse,
      addSynthesis, synthesize_literature, synthesisDefault, w7T1, w7T2, w7I1, w7I2, w7O]
  have hmain := C7_rank.1 w7O [w7I2, w7I1] ["learning"] w7R hrun
  exact ⟨hrun, hmain.1, hmain.2.1, hmain.2.2.1⟩

/-! ## Claim C8: fatal input handling -/

def c8O : Oracles :=
  { search := fun _ => [],
    novelty := fun _ _ => none,
    doability := fun _ _ => none,
    synthesis := fun _ _ => none }

/-- C8 counterexample: on an empty idea list the ranking engine is not
rejected anywhere; it runs to completion and returns an empty top_ideas
with total 0, contradicting the claim that an empty idea list is
surfaced as an explicit rejection. -/
theorem C8_counterexample :
    research_ideas c8O [] ["machine learning"] =
      some { top_ideas := [], total_ideas_analyzed := 0 } := by
  simp [research_ideas, scoreAll, sortDesc, select_diverse_top_3]

/-- C8 (amended): an entirely absent topic list is rejected by the
analyze route with an explicit 400 before the pipeline runs; an empty
idea list however is not rejected: the ranking engine accepts it and
returns an empty result set. -/
theorem C8_guard :
    (∀ (job_id : Option String) (found : Bool),
      job_id ≠ none → job_id ≠ some "" → found = true →
      analyze_guard job_id found [] =
        AnalyzeGuard.reject "At least one topic must be selected" 400) ∧
    (∀ (o : Oracles) (topics : List String),
      research_ideas o [] topics = some { top_ideas := [], total_ideas_analyzed := 0 }) := by
  constructor
  · intro job_id found h1 h2 h3
    subst h3
    simp [analyze_guard, h1, h2]
  · intro o topics
    simp [research_ideas, scoreAll, sortDesc, select_diverse_top_3]

/-- Witness for C8_guard: a well-formed request with an empty topic list
is rejected with a 400. -/
theorem C8_guard_witness :
    analyze_guard (some "job-1") true [] =
      AnalyzeGuard.reject "At least one topic must be selected" 400 :=
  C8_guard.1 (some "job-1") true (by simp) (by simp) rfl

/-! ## Claim C9: synthesis exactly for finalists, frame condition -/

/-- C9: on every successful run the returned finalists are exactly the
diversity selection of the sorted scored list, each with one synthesis
call on its own idea and papers attached; every scored idea enters
selection with no synthesis attached (so non-finalists never receive
one), and attaching the synthesis changes no other field. -/
theorem C9_synthesis :
    (∀ (o : Oracles) (ideas : List Idea) (topics : List String) (r : RankResult),
      research_ideas o ideas topics = some r →
      ∃ scored, scoreAll o topics ideas = some scored ∧
        (∀ s ∈ scored, s.literature_synthesis = none) ∧
        r.top_ideas = (select_diverse_top_3 (sortDesc scored)).map (addSynthesis o)) ∧
    (∀ (o : Oracles) (item : ScoredIdea),
      (addSynthesis o item).idea = item.idea ∧
      (addSynthesis o item).papers = item.papers ∧
      (addSynthesis o item).novelty_assessment = item.novelty_assessment ∧
      (addSynthesis o item).doability_assessment = item.doability_assessment ∧
      (addSynthesis o item).topic_match_score = item.topic_match_score ∧
      (addSynthesis o item).composite_score = item.composite_score ∧
      (addSynthesis o item).literature_synthesis =
        some (synthesize_literature (o.synthesis item.idea item.papers))) := by
  constructor
  · intro o ideas topics r h
    rcases research_ideas_inv o ideas topics r h with ⟨scored, hs, htop, _⟩
    exact ⟨scored, hs, fun s hsm => scoreAll_lit_none o topics ideas scored hs s hsm, htop⟩
  · intro o item
    exact ⟨rfl, rfl, rfl, rfl, rfl, rfl, rfl⟩

def w9Idea : Idea := ⟨"frames", "d"⟩

def w9O : Oracles :=
  { search := fun _ => [],
    novelty := fun _ _ => none,
    doability := fun _ _ => none,
    synthesis := fun _ _ => none }

def w9Pre : ScoredIdea :=
  ⟨w9Idea, [], noveltyDefault, doabilityDefault, 3 / 2,
    (3 / 10) * 3 + (4 / 10) * 3 + (3 / 10) * (3 / 2), none⟩

/-- Witness for C9_synthesis at a concrete one-idea run: the single
scored idea enters selection without synthesis and the returned finalist
is exactly that record with the synthesis field filled. -/
theorem C9_synthesis_witness :
    ∃ scored, scoreAll w9O ["x"] [w9Idea] = some scored ∧
      (∀ s ∈ scored, s.literature_synthesis = none) ∧
      ((select_diverse_top_3 (sortDesc scored)).map (addSynthesis w9O)).length = 1 := by
  have hrun : research_ideas w9O [w9Idea] ["x"] =
      some { top_ideas := [addSynthesis w9O w9Pre], total_ideas_analyzed := 1 } := by
    simp [research_ideas, scoreAll, scoreIdea, w9O, w9Idea, w9Pre, assess_novelty,
      assess_doability, getScore, jsonGet, asNumber, List.lookup, noveltyDefault,
      doabilityDefault, calculate_topic_match, lowerData, topicMatched, pyWords,
      wordsAux, listContains, round1, roundHalfEven, List.countP_cons, List.countP_nil,
      sortDesc, insertDesc, select_diverse_top_3, diverseLoop, addSynthesis,
      synthesize_literature, synthesisDefault]
    norm_num [addSynthesis, synthesize_literature, synthesisDefault, w9O, w9Pre, w9Idea]
  rcases C9_synthesis.1 w9O [w9Idea] ["x"] _ hrun with ⟨scored, hs, hnone, htop⟩
  refine ⟨scored, hs, hnone, ?_⟩
  rw [← htop]
  rfl

/-! ## Claim C10: verbatim pass-through of parsed backend JSON -/

/-- C10: whenever the brace-extracted substring of a backend response
parses as JSON, both assessors return the parsed value verbatim: no
clamping of scores to [1, 5], no enum validation, no insertion of absent
fields; exactly the parsed object flows into the composite computation. -/
theorem C10_verbatim : ∀ (text : String) (j : Json),
    parseResponse text = some j →
    assess_novelty (some text) = j ∧ assess_doability (some text) = j := by
  intro text j h
  constructor
  · simp [assess_novelty, h]
  · simp [assess_doability, h]

/-- Witness for C10_verbatim: a response wrapping an object with an
out-of-range score 100 and a nonstandard extra field is returned exactly
as parsed by both assessors. -/
theorem C10_verbatim_witness :
    parseResponse "Sure! \x7b\"novelty_score\": 100, \"extra\": true\x7d done" =
      some (Json.obj [("novelty_score", Json.num 100), ("extra", Json.bool true)]) ∧
    assess_novelty (some "Sure! \x7b\"novelty_score\": 100, \"extra\": true\x7d done") =
      Json.obj [("novelty_score", Json.num 100), ("extra", Json.bool true)] ∧
    assess_doability (some "Sure! \x7b\"novelty_score\": 100, \"extra\": true\x7d done") =
      Json.obj [("novelty_score", Json.num 100), ("extra", Json.bool true)] := by
  have hp : parseResponse "Sure! \x7b\"novelty_score\": 100, \"extra\": true\x7d done" =
      some (Json.obj [("novelty_score", Json.num 100), ("extra", Json.bool true)]) := by
    simp [parseResponse, extractBraced, strFind, strRFind, jsonLoads, parseVal, parseRun,
      parseStrBody, parseNumber, takeDigits, digitsVal, insertKey, skipWs, isJsonWs,
      lbrace, rbrace]
  have hv := C10_verbatim _ _ hp
  exact ⟨hp, hv.1, hv.2⟩
